import Mathlib

/-!
Shallow embedding of the SAML session middleware in `samlsp/middleware.go`
(package `samlsp` of tambeti/saml), together with proofs about it.

The middleware's stateful HTTP handlers are embedded as pure functions from
an explicit request value (cookies, headers, form fields) and an explicit
environment (the configured service-provider key, the current time, whether
the local signing operation succeeds, configuration flags) to an explicit
outcome value, one constructor per distinct control-flow exit of the Go code
(a written response, a redirect with its Set-Cookie side effects, or a panic).

JSON Web Tokens are embedded symbolically: a compact token string is either
unparsable or a triple of signing algorithm, claim set and the key that
produced the signature; `jwtParse` embeds `jwt.Parse` with the key function
the middleware passes to it (reject any non-RSA method, verify against the
service provider key's public half, validate the `exp` claim when present).
-/

namespace Saml

/-- Dynamic JSON values as they appear in a decoded JWT claim set
(`map[string]interface{}` in Go): strings, numbers, arrays, or null.
Go type assertions on an `interface{}` value succeed only for the
matching constructor and panic otherwise. -/
inductive JSONValue where
  | str (s : String)
  | num (n : Int)
  | arr (vs : List JSONValue)
  | null

/-- A JWT claim set: `jwt.MapClaims`, a map from claim name to dynamic value.
Embedded as an association list whose keys are unique (maintained by
`Claims.set`, the embedding of Go map assignment). -/
abbrev Claims := List (String × JSONValue)

/-- Go map assignment `claims[k] = v`: replace the entry for `k` if present,
otherwise add one. -/
def Claims.set : Claims → String → JSONValue → Claims
  | [], k, v => [(k, v)]
  | (k', v') :: rest, k, v =>
    if k' == k then (k, v) :: rest else (k', v') :: Claims.set rest k v

/-- Go map read `claims[k]`: the value stored at `k`, if any. -/
def Claims.lookup : Claims → String → Option JSONValue
  | [], _ => none
  | (k', v') :: rest, k => if k' == k then some v' else Claims.lookup rest k

/-- JWT signing algorithms relevant to the middleware: the RSA family
(`*jwt.SigningMethodRSA`: RS256/RS384/RS512) and a representative
non-RSA method. -/
inductive Alg where
  | RS256
  | RS384
  | RS512
  | HS256
  deriving DecidableEq, Repr

/-- Whether the method is `*jwt.SigningMethodRSA`, the only family the
middleware's key functions accept. -/
def Alg.isRSA : Alg → Bool
  | .RS256 => true
  | .RS384 => true
  | .RS512 => true
  | .HS256 => false

/-- A compact JWT string, embedded symbolically: the empty string, a string
that does not parse as a JWT at all, or a well-formed token recording its
header algorithm, claim set, and the identifier of the private key whose
signature it carries. -/
inductive TokenStr where
  | empty
  | malformed
  | tok (alg : Alg) (claims : Claims) (sigKey : Nat)

/-- The Go comparison `cookie.Value == ""` on the raw cookie string. -/
def TokenStr.isEmptyStr : TokenStr → Bool
  | .empty => true
  | _ => false

/-- Errors from `jwt.Parse`: the middleware only distinguishes
"`err != nil || !token.Valid`" from success, but the causes are kept apart. -/
inductive ParseErr where
  | malformed
  | badMethod
  | badSignature
  | invalidClaims
  deriving DecidableEq, Repr

/-- `jwt.Parse` with the key function the middleware uses everywhere:
reject any signing method that is not `*jwt.SigningMethodRSA`, verify the
signature against the public half of the service provider key `pubKey`,
and validate the claims (`jwt-go` rejects a numeric `exp` claim strictly in
the past; a missing or non-numeric `exp` imposes no constraint). -/
def jwtParse (pubKey : Nat) (now : Int) (t : TokenStr) : Except ParseErr Claims :=
  match t with
  | .empty => .error .malformed
  | .malformed => .error .malformed
  | .tok alg claims sigKey =>
    if alg.isRSA = false then .error .badMethod
    else if sigKey ≠ pubKey then .error .badSignature
    else
      match claims.lookup "exp" with
      | some (.num e) => if e < now then .error .invalidClaims else .ok claims
      | _ => .ok claims

/-- `token.SignedString(m.ServiceProvider.Key)`: producing the compact signed
token. The signing primitive itself can fail (local key malfunction); the
flag `signOK` says whether it does, so that both outcomes of the Go error
check are represented. -/
def signedString (signOK : Bool) (key : Nat) (alg : Alg) (claims : Claims) :
    Except Unit TokenStr :=
  if signOK then .ok (.tok alg claims key) else .error ()

/-- `strings.HasPrefix s pre`: whether `pre` is a prefix of `s`. -/
def hasPrefixStr (s pre : String) : Bool :=
  pre.data.isPrefixOf s.data

/-- Go `validHeaderFieldByte` / the MIME token character table: ASCII
alphanumerics and the RFC 7230 token specials. -/
def isTokenChar (c : Char) : Bool :=
  c.isAlphanum || c == '!' || c == Char.ofNat 35 || c == Char.ofNat 36 ||
    c == Char.ofNat 37 || c == Char.ofNat 38 || c == Char.ofNat 39 ||
    c == Char.ofNat 42 || c == '+' || c == '-' || c == '.' ||
    c == Char.ofNat 94 || c == Char.ofNat 95 || c == Char.ofNat 96 ||
    c == '|' || c == Char.ofNat 126

/-- Character-level loop of `textproto.CanonicalMIMEHeaderKey`: uppercase a
letter at the start or after a hyphen, lowercase every other letter. -/
def canonChars : Bool → List Char → List Char
  | _, [] => []
  | upper, c :: cs =>
    (if upper then c.toUpper else c.toLower) :: canonChars (c == '-') cs

/-- `http.CanonicalHeaderKey`: the canonical MIME form of a header key
(words capitalized, the rest lowercased); a key containing any invalid
byte is returned unchanged. -/
def canonicalHeaderKey (s : String) : String :=
  if s.data.any (fun c => !isTokenChar c) then s
  else ⟨canonChars true s.data⟩

/-- `http.Header`: a map from canonical header key to the ordered list of
values, embedded as an association list with unique keys. -/
abbrev Headers := List (String × List String)

/-- `http.Header.Add k v`: canonicalize the key and append `v` to its value
list, creating the entry if absent. -/
def headersAdd (h : Headers) (k v : String) : Headers :=
  let ck := canonicalHeaderKey k
  if h.any (fun kv => kv.1 == ck) then
    h.map (fun kv => if kv.1 == ck then (kv.1, kv.2 ++ [v]) else kv)
  else h ++ [(ck, [v])]

/-- Direct indexing `h[k]` of an `http.Header` (keys are stored
canonically): the value list at `k`, or the empty list when absent. -/
def headersGetRaw (h : Headers) (k : String) : List String :=
  match h.find? (fun kv => kv.1 == k) with
  | some kv => kv.2
  | none => []

/-- An HTTP cookie as set by the middleware (`http.Cookie` fields it
assigns). `expires = 0` embeds the zero `time.Time`. -/
structure HCookie where
  name : String
  value : TokenStr
  maxAge : Int := 0
  expires : Int := 0
  path : String := ""
  httpOnly : Bool := false

/-- An inbound HTTP request, reduced to the parts the middleware reads:
the URL path, the full URL string (`r.URL.String()`), the cookie jar
(`Cookie:` header name/value pairs, which is all `r.Cookie` reconstructs),
the header map, and the parsed form. -/
structure Request where
  path : String := "/"
  url : String := "/"
  cookies : List (String × TokenStr) := []
  headers : Headers := []
  form : List (String × String) := []

/-- `r.Cookie n`: the first cookie in the jar named `n`, if any. -/
def lookupCookie (jar : List (String × TokenStr)) (n : String) : Option TokenStr :=
  (jar.find? (fun kv => kv.1 == n)).map (fun kv => kv.2)

/-- `r.Form.Get k`: the first form value for `k`, or `""` when absent. -/
def formGet (r : Request) (k : String) : String :=
  match r.form.find? (fun kv => kv.1 == k) with
  | some kv => kv.2
  | none => ""

/-- A cookie as stored in a browser's jar: for a fixed host, RFC 6265
cookie identity is the (name, path) pair, and the stored value. Cookie
expiry is not modelled — every scenario below stays within each cookie's
lifetime window. -/
structure JarCookie where
  name : String
  path : String
  value : TokenStr

/-- RFC 6265 §5.1.4 default-path of a request URI path: the characters up
to but not including the right-most `/`, or `/` when the path is empty,
does not start with `/`, or contains no further `/`. This is the path a
`Set-Cookie` without a `Path` attribute is stored under (the clearing
cookie in `Authorize` has an empty `Path`, and Go's serializer also omits
its zero-time `Expires`, so the clear reaches the browser as a pathless
session cookie). -/
def defaultPath (uri : String) : String :=
  match uri.data with
  | [] => "/"
  | c :: _ =>
    if c ≠ '/' then "/"
    else
      let kept := ((uri.data.reverse.dropWhile (fun ch => ch ≠ '/')).drop 1).reverse
      if kept.isEmpty then "/" else String.mk kept

/-- RFC 6265 §5.1.4 path-match: the cookie path equals the request path,
or is a prefix of it that either ends in `/` or is followed by `/`. -/
def pathMatches (cookiePath reqPath : String) : Bool :=
  (cookiePath == reqPath) ||
  (cookiePath.data.isPrefixOf reqPath.data &&
    ((cookiePath.data.getLast? == some '/') ||
     ((reqPath.data.drop cookiePath.data.length).head? == some '/')))

/-- A browser storing one `Set-Cookie` received on a response to
`requestPath`: the cookie's path is its `Path` attribute, or the request's
default-path when that attribute is absent; a cookie with the same
(name, path) identity is replaced, any other cookie is left alone and the
new one stored. -/
def applySetCookieJar (requestPath : String) (jar : List JarCookie)
    (c : HCookie) : List JarCookie :=
  let p := if c.path == "" then defaultPath requestPath else c.path
  if jar.any (fun jc => jc.name == c.name && jc.path == p) then
    jar.map (fun jc =>
      if jc.name == c.name && jc.path == p then
        { name := jc.name, path := jc.path, value := c.value }
      else jc)
  else jar ++ [{ name := c.name, path := p, value := c.value }]

/-- A browser applying a response's `Set-Cookie` headers in order. -/
def applySetCookiesJar (requestPath : String) (jar : List JarCookie)
    (cs : List HCookie) : List JarCookie :=
  cs.foldl (applySetCookieJar requestPath) jar

/-- Stable insertion of a jar cookie before the first strictly
shorter-path entry, used to order a `Cookie` header. -/
def insertByPathLen (jc : JarCookie) : List JarCookie → List JarCookie
  | [] => [jc]
  | x :: xs =>
    if x.path.length < jc.path.length then jc :: x :: xs
    else x :: insertByPathLen jc xs

/-- RFC 6265 §5.4 ordering of the `Cookie` header: longer paths first
(stable for equal lengths). -/
def sortByPathLen (l : List JarCookie) : List JarCookie :=
  l.foldr insertByPathLen []

/-- The `Cookie` header a browser sends to `reqPath`: the name/value pairs
of every path-matching jar cookie, longest path first — which is the list
`r.Cookies()` then yields on the server. -/
def cookiesForRequest (jar : List JarCookie) (reqPath : String) :
    List (String × TokenStr) :=
  (sortByPathLen (jar.filter (fun jc => pathMatches jc.path reqPath))).map
    (fun jc => (jc.name, jc.value))

/-- `const cookieName = "token"`. -/
def cookieName : String := "token"

/-- `const cookieMaxAge = time.Hour`, in seconds as the code converts it
(`.Seconds()` for the cookie max-age, `.Unix()` arithmetic for `exp`). -/
def cookieMaxAge : Int := 3600

/-- Modelled from the spec: `saml.MaxIssueDelay` lives in the protocol-engine
package (not under the sources embedded here); the spec only says the
correlation cookie's max age is "bounded by the protocol engine's maximum
permitted issue delay". Its concrete number of seconds is irrelevant to
every property proved below. -/
def maxIssueDelaySeconds : Int := 90

/-- Modelled from the spec: a SAML assertion attribute as the middleware
consumes it (`attr.FriendlyName`, `attr.Name`, and the `.Value` strings of
`attr.Values`, in order); the `saml.Assertion` type itself belongs to the
protocol-engine package outside the embedded sources. -/
structure Attribute where
  friendlyName : String := ""
  name : String := ""
  values : List String := []
  deriving DecidableEq, Repr

/-- Modelled from the spec: the part of a validated `saml.Assertion` the
middleware reads — its attribute statement's ordered attribute list. -/
structure Assertion where
  attributes : List Attribute := []
  deriving DecidableEq, Repr

/-- The claim name the middleware files an attribute under: the friendly
name if nonempty, else the raw name. -/
def claimNameOf (a : Attribute) : String :=
  if a.friendlyName == "" then a.name else a.friendlyName

/-- The attribute-flattening loop of `Authorize`: each attribute's values
become a string array stored at its claim name. -/
def buildClaims (attrs : List Attribute) : Claims :=
  attrs.foldl
    (fun cl a => Claims.set cl (claimNameOf a) (.arr (a.values.map .str))) []

/-- The full session-token claim set `Authorize` signs: the flattened
attributes plus `exp = TimeNow().Add(cookieMaxAge).Unix()`. -/
def buildSessionClaims (asrt : Assertion) (now : Int) : Claims :=
  Claims.set (buildClaims asrt.attributes) "exp" (.num (now + cookieMaxAge))

/-- The session cookie `Authorize` sets: name `token`, path `/`,
max age one hour, not HTTP-only. -/
def mkSessionCookie (tok : TokenStr) : HCookie :=
  { name := cookieName, value := tok, maxAge := cookieMaxAge, path := "/" }

/-- The cleared correlation cookie `Authorize` sets: the looked-up cookie
(which `r.Cookie` returns with only name and value populated) with its
value emptied and its `Expires` reset to the zero time. -/
def clearedCookie (n : String) : HCookie :=
  { name := n, value := .empty }

/-- Outcome of `IsAuthorized`: not authorized (`false`), a panic, or
authorized (`true`) together with the request's header map after the
`X-Saml-*` projection. -/
inductive AuthorizedResult where
  | notAuth
  | panicked
  | ok (headers : Headers)
  deriving DecidableEq, Repr

/-- The inner loop of `IsAuthorized`'s claim projection: each element of a
claim's value array is type-asserted to a string (panicking otherwise,
embedded as `none`) and added under `X-Saml-<claimName>`. -/
def projectValues (h : Headers) (claimName : String) :
    List JSONValue → Option Headers
  | [] => some h
  | .str s :: rest =>
    projectValues (headersAdd h ("X-Saml-" ++ claimName) s) claimName rest
  | _ :: _ => none

/-- The claim-projection loop of `IsAuthorized`: skip the `exp` claim,
type-assert every other claim value to an array (panicking otherwise,
embedded as `none`) and project its elements. -/
def projectClaims (h : Headers) : Claims → Option Headers
  | [] => some h
  | (claimName, claimValue) :: rest =>
    if claimName == "exp" then projectClaims h rest
    else
      match claimValue with
      | .arr vs =>
        match projectValues h claimName vs with
        | some h' => projectClaims h' rest
        | none => none
      | _ => none

/-- `Middleware.IsAuthorized`: read the `token` cookie (absence means not
authorized), parse and verify it (failure means not authorized), panic if
the request already carries any `X-Saml*` header, then project every
non-`exp` claim into `X-Saml-<name>` headers. -/
def IsAuthorized (key : Nat) (now : Int) (r : Request) : AuthorizedResult :=
  match lookupCookie r.cookies cookieName with
  | none => .notAuth
  | some v =>
    match jwtParse key now v with
    | .error _ => .notAuth
    | .ok claims =>
      if r.headers.any (fun kv => hasPrefixStr kv.1 "X-Saml") then .panicked
      else
        match projectClaims r.headers claims with
        | some h => .ok h
        | none => .panicked

/-- Outcome of `getPossibleRequestIDs`: the collected ID list, or a panic
(a verified correlation cookie whose `id` claim is missing or not a
string fails the `claims["id"].(string)` type assertion). -/
inductive CollectResult where
  | panicked
  | ok (ids : List String)
  deriving DecidableEq, Repr

/-- The cookie-scanning loop of `getPossibleRequestIDs`: skip cookies whose
name lacks the `saml_` prefix or whose value is empty, skip cookies that do
not parse and verify, and take `claims["id"].(string)` from the rest
(`none` embeds the panic on a failed type assertion). -/
def collectIDs (key : Nat) (now : Int) :
    List (String × TokenStr) → Option (List String)
  | [] => some []
  | (n, v) :: rest =>
    if hasPrefixStr n "saml_" = false ∨ v.isEmptyStr = true then
      collectIDs key now rest
    else
      match jwtParse key now v with
      | .error _ => collectIDs key now rest
      | .ok claims =>
        match claims.lookup "id" with
        | some (.str s) => (collectIDs key now rest).map (fun ids => s :: ids)
        | _ => none

/-- `Middleware.getPossibleRequestIDs`: collect the request IDs of all
verifying `saml_` correlation cookies, then append the empty-string
sentinel when `AllowIDPInitiated` is set. -/
def getPossibleRequestIDs (key : Nat) (now : Int) (allowIDPInitiated : Bool)
    (r : Request) : CollectResult :=
  match collectIDs key now r.cookies with
  | none => .panicked
  | some ids => .ok (ids ++ if allowIDPInitiated then [""] else [])

/-- Outcome of `Authorize`: HTTP 403, a panic, or an HTTP 302 redirect
together with the `Set-Cookie` headers written before it, in order. -/
inductive AuthorizeResult where
  | forbidden
  | panicked
  | redirect (setCookies : List HCookie) (uri : String)

/-- The tail of `Authorize` once the redirect URI is settled: sign the
session claims (a signing error panics), set the session cookie after any
already-written cookies, and redirect. -/
def mkSessionRedirect (key : Nat) (now : Int) (signOK : Bool)
    (asrt : Assertion) (preCookies : List HCookie) (redirectURI : String) :
    AuthorizeResult :=
  match signedString signOK key .RS256 (buildSessionClaims asrt now) with
  | .error _ => .panicked
  | .ok tok => .redirect (preCookies ++ [mkSessionCookie tok]) redirectURI

/-- `Middleware.Authorize`: with a nonempty `RelayState`, look up the
`saml_<RelayState>` cookie (403 when missing), verify it (403 on failure),
take its `uri` claim (panicking when missing or not a string) and clear
the cookie; with an empty `RelayState` skip all of that and use `/`.
Then issue the session cookie and redirect. -/
def Authorize (key : Nat) (now : Int) (signOK : Bool) (r : Request)
    (asrt : Assertion) : AuthorizeResult :=
  let relayState := formGet r "RelayState"
  if relayState = "" then mkSessionRedirect key now signOK asrt [] "/"
  else
    match lookupCookie r.cookies ("saml_" ++ relayState) with
    | none => .forbidden
    | some v =>
      match jwtParse key now v with
      | .error _ => .forbidden
      | .ok claims =>
        match claims.lookup "uri" with
        | some (.str uri) =>
          mkSessionRedirect key now signOK asrt
            [clearedCookie ("saml_" ++ relayState)] uri
        | _ => .panicked

/-- Outcome of one `RequireAccount` invocation: delegate to the wrapped
handler with the projected headers, panic, answer HTTP 500, or answer
HTTP 302 to the IdP with the correlation cookie set. -/
inductive RequireAccountResult where
  | serveNext (headers : Headers)
  | panicked
  | error500
  | redirectToIdP (setCookie : HCookie) (location : String)

/-- `Middleware.RequireAccount` (the handler it wraps around `next`):
serve `next` when `IsAuthorized` holds; panic when invoked on the ACS path
itself; otherwise build an authentication request (`authnRequestID = none`
embeds `MakeAuthenticationRequest` failing, an HTTP 500), sign a
correlation token holding the request ID and the original URL (signing
failure is an HTTP 500), set it as the `saml_<relayState>` cookie scoped
to the ACS path, and redirect to the IdP. `relayState` is the base64 of 42
random bytes; `redirectURL` is `req.Redirect(relayState)`, computed by the
protocol engine. -/
def RequireAccount (key : Nat) (now : Int) (signOK : Bool) (acsPath : String)
    (authnRequestID : Option String) (relayState redirectURL : String)
    (r : Request) : RequireAccountResult :=
  match IsAuthorized key now r with
  | .ok h => .serveNext h
  | .panicked => .panicked
  | .notAuth =>
    if r.path = acsPath then .panicked
    else
      match authnRequestID with
      | none => .error500
      | some reqID =>
        match signedString signOK key .RS256
            (Claims.set (Claims.set [] "id" (.str reqID)) "uri" (.str r.url)) with
        | .error _ => .error500
        | .ok signedState =>
          .redirectToIdP
            { name := "saml_" ++ relayState, value := signedState,
              maxAge := maxIssueDelaySeconds, path := acsPath }
            redirectURL

/-- Outcome of `Middleware.ServeHTTP`: the metadata document, HTTP 403 on a
response-parsing failure at the ACS path, the outcome of `Authorize`, a
panic bubbling up from `getPossibleRequestIDs`, or HTTP 404. -/
inductive ServeResult where
  | metadataResponse
  | forbidden
  | fromAuthorize (res : AuthorizeResult)
  | panicked
  | notFound

/-- `Middleware.ServeHTTP`: serve the metadata document on the metadata
path; on the ACS path run `ParseResponse` (embedded as the opaque
`parseResponse`, the protocol engine) over the collected request IDs and
`Authorize` its assertion; answer `http.NotFoundHandler()` everywhere
else. -/
def ServeHTTP (key : Nat) (now : Int) (signOK allowIDPInitiated : Bool)
    (metadataPath acsPath : String)
    (parseResponse : List String → Except Unit Assertion) (r : Request) :
    ServeResult :=
  if r.path = metadataPath then .metadataResponse
  else if r.path = acsPath then
    match getPossibleRequestIDs key now allowIDPInitiated r with
    | .panicked => .panicked
    | .ok ids =>
      match parseResponse ids with
      | .error _ => .forbidden
      | .ok asrt => .fromAuthorize (Authorize key now signOK r asrt)
  else .notFound

/-- Outcome of the handler `RequireAttribute name value` wraps around
`next`: delegate or HTTP 403. -/
inductive RequireAttrResult where
  | delegated
  | forbidden
  deriving DecidableEq, Repr

/-- `RequireAttribute`: look up `X-Saml-<name>` (canonicalized, as Go's
map indexing after `http.CanonicalHeaderKey`) in the request headers and
delegate exactly when some value equals `value`; otherwise HTTP 403. -/
def RequireAttribute (name value : String) (r : Request) : RequireAttrResult :=
  if (headersGetRaw r.headers
      (canonicalHeaderKey ("X-Saml-" ++ name))).any (fun s => s == value) then
    .delegated
  else .forbidden

/-- Spec-side characterization used to state the Request-ID Registry claim:
the request ID a single cookie contributes — `some` exactly when the cookie
carries the `saml_` name prefix, a nonempty value, a token that parses and
verifies, and a string `id` claim. -/
def validCorrelationID (key : Nat) (now : Int) (c : String × TokenStr) :
    Option String :=
  if hasPrefixStr c.1 "saml_" = true ∧ c.2.isEmptyStr = false then
    match jwtParse key now c.2 with
    | .ok cl =>
      match cl.lookup "id" with
      | some (.str s) => some s
      | _ => none
    | .error _ => none
  else none

/-- Well-shapedness of one cookie for `getPossibleRequestIDs`: if its token
verifies, its `id` claim is a string (otherwise the Go type assertion
`claims["id"].(string)` panics). -/
def idClaimOK (key : Nat) (now : Int) (v : TokenStr) : Bool :=
  match jwtParse key now v with
  | .ok cl =>
    match cl.lookup "id" with
    | some (.str _) => true
    | _ => false
  | .error _ => true

/-- The canonical header key an attribute's claim projects to. -/
def ckeyOfAttr (a : Attribute) : String :=
  canonicalHeaderKey ("X-Saml-" ++ claimNameOf a)

/-- The claim-set entry `Authorize` builds for one attribute. -/
def entryOfAttr (a : Attribute) : String × JSONValue :=
  (claimNameOf a, .arr (a.values.map .str))

/-- The header entry one attribute's claim contributes under projection:
none when the attribute has no values, else its canonical key with the
ordered values. -/
def hdrEntryOfAttr (a : Attribute) : Option (String × List String) :=
  if a.values.isEmpty then none
  else some (ckeyOfAttr a, a.values)

/-- Spec-side characterization used to state the Session Manager round-trip
claim: the header map that projecting the claim mapping of `attrs` should
produce — one entry per attribute with at least one value, at the canonical
`X-Saml-<claim name>` key, holding the ordered values. -/
def specProjection (attrs : List Attribute) : Headers :=
  attrs.filterMap hdrEntryOfAttr

/-- Folding a list of values into one header key, the shape of
`IsAuthorized`'s inner projection loop. -/
def addStrs (h : Headers) (k : String) (ss : List String) : Headers :=
  ss.foldl (fun h' s => headersAdd h' k s) h

/-- A request whose projected `role` attribute is `["user", "admin"]`
(canonical header key, as `IsAuthorized` stores it). -/
def roleAdminRequest : Request :=
  { headers := [("X-Saml-Role", ["user", "admin"])] }

/-- A request whose projected `role` attribute is `["user"]`. -/
def roleUserRequest : Request :=
  { headers := [("X-Saml-Role", ["user"])] }

/-! ### Supporting lemmas about token verification -/

theorem jwtParse_notRSA {alg : Alg} (k : Nat) (now : Int) (cl : Claims)
    (sk : Nat) (h : alg.isRSA = false) :
    jwtParse k now (.tok alg cl sk) = .error .badMethod := by
  simp [jwtParse, h]

theorem jwtParse_wrongKey {alg : Alg} {sk k : Nat} (now : Int) (cl : Claims)
    (hr : alg.isRSA = true) (h : sk ≠ k) :
    jwtParse k now (.tok alg cl sk) = .error .badSignature := by
  simp [jwtParse, hr, h]

theorem jwtParse_expired {alg : Alg} {k : Nat} {now e : Int} {cl : Claims}
    (hr : alg.isRSA = true) (he : cl.lookup "exp" = some (.num e))
    (hlt : e < now) :
    jwtParse k now (.tok alg cl k) = .error .invalidClaims := by
  simp [jwtParse, hr, he, hlt]

theorem jwtParse_ok_inv {alg : Alg} {k sk : Nat} {now : Int} {cl cl' : Claims}
    (h : jwtParse k now (.tok alg cl sk) = .ok cl') :
    cl' = cl ∧ alg.isRSA = true ∧ sk = k ∧
      ∀ e : Int, cl.lookup "exp" = some (.num e) → now ≤ e := by
  simp only [jwtParse] at h
  split at h
  · exact absurd h (by simp)
  · rename_i hrsa
    split at h
    · exact absurd h (by simp)
    · rename_i hsk
      have hrsa' : alg.isRSA = true := by revert hrsa; cases alg.isRSA <;> simp
      have hsk' : sk = k := by revert hsk; simp
      split at h
      · rename_i e hexp
        split at h
        · exact absurd h (by simp)
        · rename_i hlt
          cases h
          refine ⟨rfl, hrsa', hsk', fun e' he' => ?_⟩
          rw [hexp] at he'
          cases he'
          exact le_of_not_lt hlt
      · rename_i hexp
        cases h
        refine ⟨rfl, hrsa', hsk', fun e' he' => absurd he' (by
          intro hcontra
          exact hexp e' hcontra)⟩

theorem IsAuthorized_some (key : Nat) (now : Int) (r : Request) (v : TokenStr)
    (hc : lookupCookie r.cookies cookieName = some v) :
    IsAuthorized key now r =
      match jwtParse key now v with
      | .error _ => .notAuth
      | .ok claims =>
        if r.headers.any (fun kv => hasPrefixStr kv.1 "X-Saml") then .panicked
        else
          match projectClaims r.headers claims with
          | some h => .ok h
          | none => .panicked := by
  unfold IsAuthorized
  rw [hc]

/-! ### Claim C2 -/

/-- C2: `IsAuthorized` answers not-authorized whenever the session cookie's
token is signed with a key other than the configured service-provider key,
uses a signing method outside the RSA family, or carries a numeric `exp`
claim in the past; and it answers authorized only when the signature
verifies under the configured key with an RSA method and the token is
unexpired. -/
theorem C2_session_verification (key : Nat) (now : Int) (r : Request)
    (alg : Alg) (cl : Claims) (sk : Nat)
    (hc : lookupCookie r.cookies cookieName = some (.tok alg cl sk)) :
    (sk ≠ key → IsAuthorized key now r = .notAuth) ∧
    (alg.isRSA = false → IsAuthorized key now r = .notAuth) ∧
    (∀ e : Int, cl.lookup "exp" = some (.num e) → e < now →
      IsAuthorized key now r = .notAuth) ∧
    (∀ H : Headers, IsAuthorized key now r = .ok H →
      sk = key ∧ alg.isRSA = true ∧
        ∀ e : Int, cl.lookup "exp" = some (.num e) → now ≤ e) := by
  rw [IsAuthorized_some key now r _ hc]
  refine ⟨?_, ?_, ?_, ?_⟩
  · intro hsk
    by_cases hrsa : alg.isRSA = false
    · rw [jwtParse_notRSA _ _ _ _ hrsa]
    · have hrsa' : alg.isRSA = true := by revert hrsa; cases alg.isRSA <;> simp
      rw [jwtParse_wrongKey _ _ hrsa' hsk]
  · intro hrsa
    rw [jwtParse_notRSA _ _ _ _ hrsa]
  · intro e hexp hlt
    by_cases hrsa : alg.isRSA = false
    · rw [jwtParse_notRSA _ _ _ _ hrsa]
    · have hrsa' : alg.isRSA = true := by revert hrsa; cases alg.isRSA <;> simp
      by_cases hsk : sk = key
      · subst hsk
        rw [jwtParse_expired hrsa' hexp hlt]
      · rw [jwtParse_wrongKey _ _ hrsa' hsk]
  · intro H hok
    rcases hp : jwtParse key now (.tok alg cl sk) with e | cl'
    · rw [hp] at hok
      exact absurd hok (by simp)
    · have hinv := jwtParse_ok_inv hp
      exact ⟨hinv.2.2.1, hinv.2.1, hinv.2.2.2⟩

/-- C2 witness: a concrete token signed with key 5 is rejected by a
middleware configured with key 1. -/
theorem C2_session_verification_witness :
    IsAuthorized 1 0 { cookies := [("token", TokenStr.tok .RS256 [] 5)] }
      = .notAuth :=
  (C2_session_verification 1 0 { cookies := [("token", TokenStr.tok .RS256 [] 5)] }
    .RS256 [] 5 rfl).1 (by decide)

/-! ### Claim C5 -/

/-- C5 counterexample: a request that carries an `X-Saml-Cn` header but no
session cookie does not panic — `IsAuthorized` answers not-authorized
before ever looking at headers, so the claim's "every request" fails. -/
theorem C5_counterexample :
    IsAuthorized 1 0 { headers := [("X-Saml-Cn", ["x"])] }
      = .notAuth := rfl

/-- C5 (amended): when the session cookie is present and its token
verifies, `IsAuthorized` panics on any pre-existing `X-Saml*` header
rather than overwriting or merging; when the cookie is absent or fails
verification it answers not-authorized without the header check. -/
theorem C5_reserved_header_fatal (key : Nat) (now : Int) (r : Request)
    (v : TokenStr) (cl : Claims) :
    (lookupCookie r.cookies cookieName = some v → jwtParse key now v = .ok cl →
      r.headers.any (fun kv => hasPrefixStr kv.1 "X-Saml") = true →
      IsAuthorized key now r = .panicked) ∧
    (lookupCookie r.cookies cookieName = none →
      IsAuthorized key now r = .notAuth) ∧
    (lookupCookie r.cookies cookieName = some v →
      (∃ err, jwtParse key now v = .error err) →
      IsAuthorized key now r = .notAuth) := by
  refine ⟨?_, ?_, ?_⟩
  · intro hc hok hx
    rw [IsAuthorized_some key now r v hc, hok]
    simp [hx]
  · intro hc
    unfold IsAuthorized
    rw [hc]
  · rintro hc ⟨err, herr⟩
    rw [IsAuthorized_some key now r v hc, herr]

/-- C5 witness: with a verifying session token present, a pre-existing
`X-Saml-Cn` header is fatal. -/
theorem C5_reserved_header_fatal_witness :
    IsAuthorized 1 0
        { cookies := [("token", TokenStr.tok .RS256 [] 1)],
          headers := [("X-Saml-Cn", ["x"])] }
      = .panicked :=
  (C5_reserved_header_fatal 1 0
    { cookies := [("token", TokenStr.tok .RS256 [] 1)],
      headers := [("X-Saml-Cn", ["x"])] }
    (.tok .RS256 [] 1) []).1 rfl rfl rfl

/-! ### Claim C6 -/

/-- C6: `RequireAttribute name value` delegates exactly when the projected
attribute's value list contains an element equal to `value` (full string
equality), and otherwise answers 403; in particular
`role = ["user", "admin"]` passes `RequireAttribute "role" "admin"` while
`role = ["user"]` is forbidden. -/
theorem C6_requireAttribute (name value : String) (r : Request) :
    (RequireAttribute name value r = .delegated ↔
      value ∈ headersGetRaw r.headers (canonicalHeaderKey ("X-Saml-" ++ name))) ∧
    RequireAttribute "role" "admin" roleAdminRequest = .delegated ∧
    RequireAttribute "role" "admin" roleUserRequest = .forbidden := by
  refine ⟨?_, rfl, rfl⟩
  unfold RequireAttribute
  split
  · rename_i hcond
    simp only [List.any_eq_true, beq_iff_eq] at hcond
    obtain ⟨x, hx, rfl⟩ := hcond
    exact iff_of_true rfl hx
  · rename_i hcond
    simp only [List.any_eq_true, beq_iff_eq] at hcond
    push_neg at hcond
    exact ⟨fun h => RequireAttrResult.noConfusion h,
           fun hmem => absurd rfl (hcond value hmem)⟩

/-! ### Claim C7 -/

/-- C7 counterexample: a correlation-token signing failure inside
`RequireAccount` is answered with a recoverable request-level HTTP 500
error response (`http.Error`), not a fatal abort — refuting "every local
signing failure is a fatal, non-recoverable abort". -/
theorem C7_counterexample :
    RequireAccount 1 0 false "/saml/acs" (some "req1") "relay1"
        "https://idp/sso" { path := "/app", url := "/app" }
      = .error500 ∧
    RequireAccountResult.error500 ≠ .panicked :=
  ⟨rfl, fun h => RequireAccountResult.noConfusion h⟩

/-- C7 (amended): a session-token signing failure in `Authorize` panics
(fatal, non-recoverable), while a correlation-token signing failure in
`RequireAccount` is handled as a request-level HTTP 500 error response. -/
theorem C7_signing_failures (key : Nat) (now : Int) (r r2 : Request)
    (asrt : Assertion) (acsPath reqID rs rurl : String) :
    (formGet r "RelayState" = "" →
      Authorize key now false r asrt = .panicked) ∧
    (lookupCookie r2.cookies cookieName = none → r2.path ≠ acsPath →
      RequireAccount key now false acsPath (some reqID) rs rurl r2
        = .error500) := by
  constructor
  · intro h
    simp [Authorize, h, mkSessionRedirect, signedString]
  · intro hnoc hpath
    have hna : IsAuthorized key now r2 = .notAuth := by
      unfold IsAuthorized
      rw [hnoc]
    unfold RequireAccount
    rw [hna]
    simp [hpath, signedString]

/-- C7 witness: both signing-failure behaviours at concrete inputs. -/
theorem C7_signing_failures_witness :
    Authorize 1 0 false {} { attributes := [] } = .panicked ∧
    RequireAccount 1 0 false "/saml/acs" (some "r") "R" "u"
        { path := "/a", url := "/a" }
      = .error500 :=
  ⟨(C7_signing_failures 1 0 {} { path := "/a", url := "/a" }
      { attributes := [] } "/saml/acs" "r" "R" "u").1 rfl,
   (C7_signing_failures 1 0 {} { path := "/a", url := "/a" }
      { attributes := [] } "/saml/acs" "r" "R" "u").2 rfl (by decide)⟩

/-! ### Claim C8 -/

/-- C8 counterexample: on a path matching neither configured endpoint,
`ServeHTTP` does not pass the request through to any chain — it terminates
the request itself with `http.NotFoundHandler()` (HTTP 404). -/
theorem C8_counterexample :
    ServeHTTP 1 0 true false "/saml/metadata" "/saml/acs"
        (fun _ => Except.error ()) { path := "/protected" }
      = .notFound := rfl

/-- C8 (amended): every request whose path matches neither the metadata
path nor the ACS path is answered by `ServeHTTP` itself with HTTP 404
Not Found. -/
theorem C8_fallthrough_is_404 (key : Nat) (now : Int) (signOK allow : Bool)
    (mPath aPath : String) (pr : List String → Except Unit Assertion)
    (r : Request) (h1 : r.path ≠ mPath) (h2 : r.path ≠ aPath) :
    ServeHTTP key now signOK allow mPath aPath pr r = .notFound := by
  simp [ServeHTTP, h1, h2]

/-- C8 witness. -/
theorem C8_fallthrough_is_404_witness :
    ServeHTTP 1 0 true false "/saml/metadata" "/saml/acs"
        (fun _ => Except.error ()) { path := "/app" }
      = .notFound :=
  C8_fallthrough_is_404 1 0 true false "/saml/metadata" "/saml/acs"
    (fun _ => Except.error ()) { path := "/app" } (by decide) (by decide)

/-! ### Claim C9 -/

/-- C9: a validly signed token does not guarantee well-shaped claims — a
session-token claim value that is not an array panics `IsAuthorized`, and
a verifying `saml_` cookie whose `id` claim is missing or not a string
panics `getPossibleRequestIDs`, instead of skipping or answering
not-authorized. -/
theorem C9_claim_shape_panics :
    IsAuthorized 1 0
        { cookies := [("token", TokenStr.tok .RS256 [("cn", .str "Alice")] 1)] }
      = .panicked ∧
    getPossibleRequestIDs 1 0 false
        { cookies := [("saml_a", TokenStr.tok .RS256 [("uri", .str "/x")] 1)] }
      = .panicked ∧
    getPossibleRequestIDs 1 0 false
        { cookies := [("saml_b", TokenStr.tok .RS256 [("id", .num 7)] 1)] }
      = .panicked :=
  ⟨rfl, rfl, rfl⟩

/-! ### Claim C10 -/

/-- C10: on a valid-assertion POST whose `RelayState` form field is empty,
`Authorize` performs no correlation-cookie lookup at all (its outcome is
independent of the cookie jar), issues the session cookie, and redirects
to `/` — and `AllowIDPInitiated` plays no role (`Authorize` never reads
it). -/
theorem C10_empty_relaystate (key : Nat) (now : Int) (r : Request)
    (asrt : Assertion) (h : formGet r "RelayState" = "") :
    Authorize key now true r asrt
        = .redirect
            [mkSessionCookie (.tok .RS256 (buildSessionClaims asrt now) key)]
            "/" ∧
    ∀ jar : List (String × TokenStr),
      Authorize key now true { r with cookies := jar } asrt
        = Authorize key now true r asrt := by
  constructor
  · simp [Authorize, h, mkSessionRedirect, signedString]
  · intro jar
    have h' : formGet { r with cookies := jar } "RelayState" = "" := h
    simp [Authorize, h, h']

/-- C10 witness: a request carrying an unrelated correlation cookie still
redirects to `/` with the session cookie, untouched by the jar. -/
theorem C10_empty_relaystate_witness :
    Authorize 1 0 true { cookies := [("saml_x", TokenStr.malformed)] }
        { attributes := [{ friendlyName := "cn", values := ["Alice"] }] }
      = .redirect
          [{ name := "token",
             value := .tok .RS256
               [("cn", .arr [.str "Alice"]), ("exp", .num 3600)] 1,
             maxAge := 3600, path := "/" }] "/" :=
  (C10_empty_relaystate 1 0 { cookies := [("saml_x", TokenStr.malformed)] }
    { attributes := [{ friendlyName := "cn", values := ["Alice"] }] } rfl).1

/-! ### Claim C4 -/

theorem collectIDs_eq (key : Nat) (now : Int) :
    ∀ jar : List (String × TokenStr),
      (∀ c ∈ jar, idClaimOK key now c.2 = true) →
      collectIDs key now jar
        = some (jar.filterMap (validCorrelationID key now)) := by
  intro jar
  induction jar with
  | nil => intro _; rfl
  | cons c rest ih =>
    obtain ⟨n, v⟩ := c
    intro hshape
    have hrest := fun c hc => hshape c (List.mem_cons_of_mem _ hc)
    have hhead := hshape (n, v) (List.mem_cons_self _ _)
    rw [List.filterMap_cons]
    by_cases hskip : hasPrefixStr n "saml_" = false ∨ v.isEmptyStr = true
    · have hvc : validCorrelationID key now (n, v) = none := by
        unfold validCorrelationID
        rw [if_neg]
        rintro ⟨h1, h2⟩
        rcases hskip with hsk | hsk
        · rw [h1] at hsk; exact Bool.noConfusion hsk
        · rw [h2] at hsk; exact Bool.noConfusion hsk
      rw [hvc]
      simp only [collectIDs, if_pos hskip]
      exact ih hrest
    · have hp' : hasPrefixStr n "saml_" = true := by
        revert hskip; cases hasPrefixStr n "saml_" <;> simp
      have he' : v.isEmptyStr = false := by
        revert hskip; cases v.isEmptyStr <;> simp
      simp only [collectIDs, if_neg hskip]
      split
      · rename_i err hjp
        have hvc : validCorrelationID key now (n, v) = none := by
          unfold validCorrelationID
          rw [if_pos ⟨hp', he'⟩, hjp]
        rw [hvc]
        exact ih hrest
      · rename_i cl hjp
        unfold idClaimOK at hhead
        simp only [hjp] at hhead
        split
        · rename_i s hid
          have hvc : validCorrelationID key now (n, v) = some s := by
            unfold validCorrelationID
            rw [if_pos ⟨hp', he'⟩]
            simp only [hjp, hid]
          rw [hvc, ih hrest]
          rfl
        · rename_i hother
          rcases hid : cl.lookup "id" with _ | jv
          · rw [hid] at hhead
            exact absurd hhead (by simp)
          · cases jv with
            | str s => exact absurd (hother s hid) (fun h => h)
            | num m =>
              rw [hid] at hhead
              exact absurd hhead (by simp)
            | arr vs =>
              rw [hid] at hhead
              exact absurd hhead (by simp)
            | null =>
              rw [hid] at hhead
              exact absurd hhead (by simp)

/-- C4: `getPossibleRequestIDs` returns exactly the `id` claims of the
`saml_`-named cookies whose tokens verify under the configured key with an
RSA method (in cookie order), silently skipping every cookie that does not
verify, and additionally appends the empty string exactly when
`AllowIDPInitiated` is set. The hypothesis says each verifying cookie
carries a string `id` claim (otherwise the code panics, claim C9). -/
theorem C4_getPossibleRequestIDs (key : Nat) (now : Int) (allow : Bool)
    (r : Request)
    (hshape : ∀ c ∈ r.cookies, idClaimOK key now c.2 = true) :
    getPossibleRequestIDs key now allow r
      = .ok (r.cookies.filterMap (validCorrelationID key now)
          ++ if allow then [""] else []) := by
  unfold getPossibleRequestIDs
  rw [collectIDs_eq key now r.cookies hshape]

/-- C4 witness: three correlation cookies, two valid and one corrupted,
with IdP-initiated enabled — exactly the two valid IDs plus the empty
sentinel. -/
theorem C4_getPossibleRequestIDs_witness :
    getPossibleRequestIDs 1 0 true
        { cookies := [("saml_a", TokenStr.tok .RS256 [("id", .str "r1")] 1),
                      ("saml_b", TokenStr.malformed),
                      ("saml_c", TokenStr.tok .RS256 [("id", .str "r2")] 1)] }
      = .ok ["r1", "r2", ""] :=
  (C4_getPossibleRequestIDs 1 0 true
    { cookies := [("saml_a", TokenStr.tok .RS256 [("id", .str "r1")] 1),
                  ("saml_b", TokenStr.malformed),
                  ("saml_c", TokenStr.tok .RS256 [("id", .str "r2")] 1)] }
    (by decide)).trans rfl

/-! ### Claim C3 -/

/-- C3: the correlation-cookie round trip. `RequireAccount` sets the
`saml_<relayState>` cookie (signed token holding the request ID and the
original URL, `Path` = the ACS path) and the first resolve at the ACS
recovers both the request ID (`getPossibleRequestIDs`) and the original
URL (`Authorize`'s redirect). But the claimed single use fails: the
clearing `Set-Cookie` re-sends the cookie with an empty value and no
`Path` (its zero `Expires` is dropped by Go's serializer), so under
RFC 6265 it is stored as a separate cookie at default path `/saml` while
the still-valid signed cookie at `/saml/acs` survives; on the next ACS
request the longer-path valid cookie is sent first, and a second resolve
with the same relay identifier succeeds with a 302 redirect instead of
failing with HTTP 403. -/
theorem C3_single_use_violated :
    RequireAccount 1 0 true "/saml/acs" (some "req1") "R" "https://idp/sso"
        { path := "/app", url := "/app?q=1" }
      = .redirectToIdP
          { name := "saml_R",
            value := .tok .RS256
              [("id", .str "req1"), ("uri", .str "/app?q=1")] 1,
            maxAge := 90, path := "/saml/acs" }
          "https://idp/sso" ∧
    applySetCookieJar "/app" []
        { name := "saml_R",
          value := .tok .RS256
            [("id", .str "req1"), ("uri", .str "/app?q=1")] 1,
          maxAge := 90, path := "/saml/acs" }
      = [{ name := "saml_R", path := "/saml/acs",
           value := .tok .RS256
             [("id", .str "req1"), ("uri", .str "/app?q=1")] 1 }] ∧
    cookiesForRequest
        [{ name := "saml_R", path := "/saml/acs",
           value := .tok .RS256
             [("id", .str "req1"), ("uri", .str "/app?q=1")] 1 }]
        "/saml/acs"
      = [("saml_R", .tok .RS256
            [("id", .str "req1"), ("uri", .str "/app?q=1")] 1)] ∧
    getPossibleRequestIDs 1 0 false
        { path := "/saml/acs", url := "/saml/acs",
          cookies := [("saml_R", .tok .RS256
            [("id", .str "req1"), ("uri", .str "/app?q=1")] 1)],
          form := [("RelayState", "R")] }
      = .ok ["req1"] ∧
    Authorize 1 0 true
        { path := "/saml/acs", url := "/saml/acs",
          cookies := [("saml_R", .tok .RS256
            [("id", .str "req1"), ("uri", .str "/app?q=1")] 1)],
          form := [("RelayState", "R")] }
        { attributes := [] }
      = .redirect
          [{ name := "saml_R", value := .empty },
           { name := "token", value := .tok .RS256 [("exp", .num 3600)] 1,
             maxAge := 3600, path := "/" }]
          "/app?q=1" ∧
    applySetCookiesJar "/saml/acs"
        [{ name := "saml_R", path := "/saml/acs",
           value := .tok .RS256
             [("id", .str "req1"), ("uri", .str "/app?q=1")] 1 }]
        [{ name := "saml_R", value := .empty },
         { name := "token", value := .tok .RS256 [("exp", .num 3600)] 1,
           maxAge := 3600, path := "/" }]
      = [{ name := "saml_R", path := "/saml/acs",
           value := .tok .RS256
             [("id", .str "req1"), ("uri", .str "/app?q=1")] 1 },
         { name := "saml_R", path := "/saml", value := .empty },
         { name := "token", path := "/",
           value := .tok .RS256 [("exp", .num 3600)] 1 }] ∧
    cookiesForRequest
        [{ name := "saml_R", path := "/saml/acs",
           value := .tok .RS256
             [("id", .str "req1"), ("uri", .str "/app?q=1")] 1 },
         { name := "saml_R", path := "/saml", value := .empty },
         { name := "token", path := "/",
           value := .tok .RS256 [("exp", .num 3600)] 1 }]
        "/saml/acs"
      = [("saml_R", .tok .RS256
            [("id", .str "req1"), ("uri", .str "/app?q=1")] 1),
         ("saml_R", .empty),
         ("token", .tok .RS256 [("exp", .num 3600)] 1)] ∧
    Authorize 1 0 true
        { path := "/saml/acs", url := "/saml/acs",
          cookies := [("saml_R", .tok .RS256
              [("id", .str "req1"), ("uri", .str "/app?q=1")] 1),
            ("saml_R", .empty),
            ("token", .tok .RS256 [("exp", .num 3600)] 1)],
          form := [("RelayState", "R")] }
        { attributes := [] }
      = .redirect
          [{ name := "saml_R", value := .empty },
           { name := "token", value := .tok .RS256 [("exp", .num 3600)] 1,
             maxAge := 3600, path := "/" }]
          "/app?q=1" ∧
    (AuthorizeResult.redirect
        [{ name := "saml_R", value := .empty },
         { name := "token", value := .tok .RS256 [("exp", .num 3600)] 1,
           maxAge := 3600, path := "/" }]
        "/app?q=1")
      ≠ .forbidden :=
  ⟨rfl, rfl, rfl, rfl, rfl, rfl, rfl, rfl,
   fun h => AuthorizeResult.noConfusion h⟩
/-! ### Claim C1: supporting lemmas about claim maps -/

theorem Claims.lookup_set_self (cl : Claims) (k : String) (v : JSONValue) :
    Claims.lookup (Claims.set cl k v) k = some v := by
  induction cl with
  | nil => simp [Claims.set, Claims.lookup]
  | cons kv rest ih =>
    obtain ⟨k', v'⟩ := kv
    simp only [Claims.set]
    by_cases h : (k' == k) = true
    · rw [if_pos h]
      simp [Claims.lookup]
    · rw [if_neg h]
      simp only [Claims.lookup]
      rw [if_neg h]
      exact ih

theorem Claims.set_of_not_mem (cl : Claims) (k : String) (v : JSONValue)
    (h : k ∉ cl.map Prod.fst) :
    Claims.set cl k v = cl ++ [(k, v)] := by
  induction cl with
  | nil => rfl
  | cons kv rest ih =>
    obtain ⟨k', v'⟩ := kv
    simp only [List.map_cons, List.mem_cons] at h
    push_neg at h
    simp only [Claims.set]
    rw [if_neg (fun hb => h.1 (eq_of_beq hb).symm)]
    rw [ih h.2]
    rfl

theorem buildClaims_foldl (attrs : List Attribute) : ∀ acc : Claims,
    (∀ a ∈ attrs, claimNameOf a ∉ acc.map Prod.fst) →
    (attrs.map claimNameOf).Nodup →
    List.foldl
        (fun cl a => Claims.set cl (claimNameOf a) (.arr (a.values.map .str)))
        acc attrs
      = acc ++ attrs.map entryOfAttr := by
  induction attrs with
  | nil =>
    intro acc _ _
    simp
  | cons a as ih =>
    intro acc hdisj hnodup
    simp only [List.foldl_cons]
    have hfresh : claimNameOf a ∉ acc.map Prod.fst :=
      hdisj a (List.mem_cons_self _ _)
    rw [Claims.set_of_not_mem acc _ _ hfresh]
    simp only [List.map_cons, List.nodup_cons] at hnodup
    have harg : ∀ b ∈ as, claimNameOf b ∉
        (acc ++ [(claimNameOf a, JSONValue.arr (a.values.map .str))]).map
          Prod.fst := by
      intro b hb
      simp only [List.map_append, List.mem_append]
      rintro (hmem | hmem)
      · exact hdisj b (List.mem_cons_of_mem _ hb) hmem
      · simp only [List.map_cons, List.map_nil, List.mem_singleton] at hmem
        exact hnodup.1 (hmem ▸ List.mem_map_of_mem claimNameOf hb)
    rw [ih _ harg hnodup.2]
    simp [entryOfAttr]

theorem buildClaims_eq (attrs : List Attribute)
    (hnodup : (attrs.map claimNameOf).Nodup) :
    buildClaims attrs = attrs.map entryOfAttr := by
  have h := buildClaims_foldl attrs [] (by simp) hnodup
  simpa [buildClaims] using h

theorem sessionClaims_eq (attrs : List Attribute) (now : Int)
    (hnodup : (attrs.map claimNameOf).Nodup)
    (hexp : ∀ a ∈ attrs, claimNameOf a ≠ "exp") :
    Claims.set (buildClaims attrs) "exp" (.num (now + cookieMaxAge))
      = attrs.map entryOfAttr ++ [("exp", .num (now + cookieMaxAge))] := by
  rw [buildClaims_eq attrs hnodup]
  rw [Claims.set_of_not_mem]
  intro hmem
  simp only [List.map_map, List.mem_map, Function.comp] at hmem
  obtain ⟨a, ha, hae⟩ := hmem
  exact hexp a ha hae

/-! ### Claim C1: supporting lemmas about header projection -/

theorem headersAdd_not_mem (h : Headers) (k v : String)
    (hk : canonicalHeaderKey k ∉ h.map Prod.fst) :
    headersAdd h k v = h ++ [(canonicalHeaderKey k, [v])] := by
  simp only [headersAdd]
  rw [if_neg]
  intro hany
  rw [List.any_eq_true] at hany
  obtain ⟨kv, hkv, hbeq⟩ := hany
  have hmem : kv.1 ∈ h.map Prod.fst := List.mem_map_of_mem _ hkv
  rw [eq_of_beq hbeq] at hmem
  exact hk hmem

theorem headersAdd_last (hh : Headers) (vs : List String) (k v : String)
    (hk : canonicalHeaderKey k ∉ hh.map Prod.fst) :
    headersAdd (hh ++ [(canonicalHeaderKey k, vs)]) k v
      = hh ++ [(canonicalHeaderKey k, vs ++ [v])] := by
  simp only [headersAdd]
  rw [if_pos]
  · rw [List.map_append]
    congr 1
    · have hcong : ∀ kv ∈ hh,
          (if kv.1 == canonicalHeaderKey k then (kv.1, kv.2 ++ [v]) else kv)
            = id kv := by
        intro kv hkv
        rw [if_neg]
        · rfl
        · intro hbeq
          have hmem : kv.1 ∈ hh.map Prod.fst := List.mem_map_of_mem _ hkv
          rw [eq_of_beq hbeq] at hmem
          exact hk hmem
      rw [List.map_congr_left hcong, List.map_id]
    · simp
  · rw [List.any_eq_true]
    exact ⟨(canonicalHeaderKey k, vs), by simp, by simp⟩

theorem addStrs_acc (k : String) : ∀ (ss : List String) (hh : Headers)
    (vs : List String), canonicalHeaderKey k ∉ hh.map Prod.fst →
    addStrs (hh ++ [(canonicalHeaderKey k, vs)]) k ss
      = hh ++ [(canonicalHeaderKey k, vs ++ ss)] := by
  intro ss
  induction ss with
  | nil =>
    intro hh vs _
    simp [addStrs]
  | cons s ss ih =>
    intro hh vs hk
    simp only [addStrs, List.foldl_cons]
    rw [headersAdd_last hh vs k s hk]
    have h2 := ih hh (vs ++ [s]) hk
    simp only [addStrs] at h2
    rw [h2]
    simp

theorem addStrs_fresh (hh : Headers) (k : String) (ss : List String)
    (hk : canonicalHeaderKey k ∉ hh.map Prod.fst) :
    addStrs hh k ss
      = if ss.isEmpty then hh else hh ++ [(canonicalHeaderKey k, ss)] := by
  cases ss with
  | nil => simp [addStrs]
  | cons s ss =>
    rw [if_neg (by simp)]
    simp only [addStrs, List.foldl_cons]
    rw [headersAdd_not_mem hh k s hk]
    have h2 := addStrs_acc k ss hh [s] hk
    simp only [addStrs] at h2
    rw [h2]
    rfl

theorem projectValues_strs (claimName : String) : ∀ (ss : List String)
    (h : Headers), projectValues h claimName (ss.map .str)
      = some (addStrs h ("X-Saml-" ++ claimName) ss) := by
  intro ss
  induction ss with
  | nil =>
    intro h
    rfl
  | cons s ss ih =>
    intro h
    simp only [List.map_cons, projectValues]
    rw [ih]
    rfl

theorem headersGetRaw_not_mem (h : Headers) (k : String)
    (hk : k ∉ h.map Prod.fst) : headersGetRaw h k = [] := by
  induction h with
  | nil => rfl
  | cons kv rest ih =>
    simp only [List.map_cons, List.mem_cons] at hk
    push_neg at hk
    unfold headersGetRaw
    rw [List.find?_cons_of_neg]
    · exact ih hk.2
    · simp only [beq_iff_eq]
      exact fun he => hk.1 he.symm

theorem specProjection_key_mem {attrs : List Attribute} {k : String}
    (h : k ∈ (specProjection attrs).map Prod.fst) :
    k ∈ attrs.map ckeyOfAttr := by
  rw [List.mem_map] at h
  obtain ⟨kv, hkv, rfl⟩ := h
  rw [specProjection, List.mem_filterMap] at hkv
  obtain ⟨a, ha, hfa⟩ := hkv
  unfold hdrEntryOfAttr at hfa
  split at hfa
  · exact absurd hfa (by simp)
  · cases hfa
    exact List.mem_map_of_mem _ ha

theorem headersGetRaw_spec_mem : ∀ attrs : List Attribute,
    (attrs.map ckeyOfAttr).Nodup →
    ∀ a ∈ attrs,
      headersGetRaw (specProjection attrs) (ckeyOfAttr a) = a.values := by
  intro attrs
  induction attrs with
  | nil =>
    intro _ a ha
    cases ha
  | cons b as ih =>
    intro hnodup a ha
    simp only [List.map_cons, List.nodup_cons] at hnodup
    rcases List.mem_cons.mp ha with rfl | ha'
    · by_cases hemp : a.values.isEmpty
      · have hcons : specProjection (a :: as) = specProjection as := by
          simp [specProjection, List.filterMap_cons, hdrEntryOfAttr, hemp]
        rw [hcons, headersGetRaw_not_mem]
        · exact (List.isEmpty_iff.mp hemp).symm
        · intro hmem
          exact hnodup.1 (specProjection_key_mem hmem)
      · have hcons : specProjection (a :: as)
            = (ckeyOfAttr a, a.values) :: specProjection as := by
          simp [specProjection, List.filterMap_cons, hdrEntryOfAttr, hemp]
        rw [hcons]
        unfold headersGetRaw
        rw [List.find?_cons_of_pos]
        simp
    · have hne : (ckeyOfAttr b == ckeyOfAttr a) = false := by
        rw [beq_eq_false_iff_ne]
        intro he
        exact hnodup.1 (he ▸ List.mem_map_of_mem _ ha')
      by_cases hemp : b.values.isEmpty
      · have hcons : specProjection (b :: as) = specProjection as := by
          simp [specProjection, List.filterMap_cons, hdrEntryOfAttr, hemp]
        rw [hcons]
        exact ih hnodup.2 a ha'
      · have hcons : specProjection (b :: as)
            = (ckeyOfAttr b, b.values) :: specProjection as := by
          simp [specProjection, List.filterMap_cons, hdrEntryOfAttr, hemp]
        rw [hcons]
        unfold headersGetRaw
        rw [List.find?_cons_of_neg]
        · have hres := ih hnodup.2 a ha'
          unfold headersGetRaw at hres
          exact hres
        · simp [hne]

theorem headersGetRaw_spec_not_mem (attrs : List Attribute) (k : String)
    (hk : ∀ a ∈ attrs, k ≠ ckeyOfAttr a) :
    headersGetRaw (specProjection attrs) k = [] := by
  apply headersGetRaw_not_mem
  intro hmem
  have h2 := specProjection_key_mem hmem
  rw [List.mem_map] at h2
  obtain ⟨a, ha, hke⟩ := h2
  exact hk a ha hke.symm

theorem projectClaims_master : ∀ (attrs : List Attribute) (hh : Headers)
    (tail : Claims),
    (∀ a ∈ attrs, claimNameOf a ≠ "exp") →
    (attrs.map ckeyOfAttr).Nodup →
    (∀ a ∈ attrs, ckeyOfAttr a ∉ hh.map Prod.fst) →
    projectClaims hh (attrs.map entryOfAttr ++ tail)
      = projectClaims (hh ++ attrs.filterMap hdrEntryOfAttr) tail := by
  intro attrs
  induction attrs with
  | nil =>
    intro hh tail _ _ _
    simp [specProjection]
  | cons a as ih =>
    intro hh tail hexp hnodup hdisj
    simp only [List.map_cons, List.nodup_cons] at hnodup
    have hbf : (claimNameOf a == "exp") = false := by
      rw [beq_eq_false_iff_ne]
      exact hexp a (List.mem_cons_self _ _)
    simp only [List.map_cons, List.cons_append, entryOfAttr, projectClaims,
      hbf, Bool.false_eq_true, if_false, projectValues_strs]
    have hfr := addStrs_fresh hh ("X-Saml-" ++ claimNameOf a) a.values
      (hdisj a (List.mem_cons_self _ _))
    simp only [List.append_eq]
    rw [hfr]
    have hexp' : ∀ b ∈ as, claimNameOf b ≠ "exp" :=
      fun b hb => hexp b (List.mem_cons_of_mem _ hb)
    by_cases hemp : a.values.isEmpty
    · rw [if_pos hemp]
      have hnone : hdrEntryOfAttr a = none := by
        simp [hdrEntryOfAttr, hemp]
      rw [List.filterMap_cons, hnone]
      exact ih hh tail hexp' hnodup.2
        (fun b hb => hdisj b (List.mem_cons_of_mem _ hb))
    · rw [if_neg hemp]
      have hdisj' : ∀ b ∈ as, ckeyOfAttr b ∉
          (hh ++ [(canonicalHeaderKey ("X-Saml-" ++ claimNameOf a),
            a.values)]).map Prod.fst := by
        intro b hb
        simp only [List.map_append, List.mem_append]
        rintro (hmem | hmem)
        · exact hdisj b (List.mem_cons_of_mem _ hb) hmem
        · simp only [List.map_cons, List.map_nil, List.mem_singleton] at hmem
          have hmem' : ckeyOfAttr b = ckeyOfAttr a := hmem
          exact hnodup.1 (hmem' ▸ List.mem_map_of_mem ckeyOfAttr hb)
      have hsome : hdrEntryOfAttr a = some (ckeyOfAttr a, a.values) := by
        simp [hdrEntryOfAttr, hemp]
      rw [ih _ tail hexp' hnodup.2 hdisj']
      congr 1
      simp [List.filterMap_cons, hsome, List.append_assoc, ckeyOfAttr]

theorem projectClaims_session (attrs : List Attribute) (now : Int)
    (hexp : ∀ a ∈ attrs, claimNameOf a ≠ "exp")
    (hnodup : (attrs.map ckeyOfAttr).Nodup) :
    projectClaims []
        (attrs.map entryOfAttr ++ [("exp", .num (now + cookieMaxAge))])
      = some (specProjection attrs) := by
  rw [projectClaims_master attrs [] _ hexp hnodup (by simp)]
  simp [projectClaims, specProjection]

theorem namesNodup_of_ckeysNodup (attrs : List Attribute)
    (h : (attrs.map ckeyOfAttr).Nodup) : (attrs.map claimNameOf).Nodup := by
  have heq : attrs.map ckeyOfAttr
      = (attrs.map claimNameOf).map
          (fun n => canonicalHeaderKey ("X-Saml-" ++ n)) := by
    rw [List.map_map]
    rfl
  rw [heq] at h
  exact h.of_map

/-- C1: issuing a session token from an assertion with attribute mapping C
(`Authorize`'s session-cookie construction) and then validating that cookie
with `IsAuthorized` projects into the `X-Saml` header namespace exactly the
claims of C — one header entry per attribute with values, at the canonical
`X-Saml-<claim name>` key, holding the ordered value list — and nothing at
any other key, in particular nothing for the `exp` expiry claim. -/
theorem C1_session_roundtrip (key : Nat) (now now2 : Int)
    (attrs : List Attribute) (racs r2 : Request) (asrt : Assertion)
    (hattrs : asrt.attributes = attrs)
    (hrelay : formGet racs "RelayState" = "")
    (hexp : ∀ a ∈ attrs, claimNameOf a ≠ "exp")
    (hnodup : (attrs.map ckeyOfAttr).Nodup)
    (hjar : r2.cookies
      = [(cookieName, .tok .RS256 (buildSessionClaims asrt now) key)])
    (hhead : r2.headers = [])
    (hnow2 : now2 ≤ now + cookieMaxAge) :
    Authorize key now true racs asrt
        = .redirect
            [mkSessionCookie (.tok .RS256 (buildSessionClaims asrt now) key)]
            "/" ∧
    IsAuthorized key now2 r2 = .ok (specProjection attrs) ∧
    (∀ a ∈ attrs,
      headersGetRaw (specProjection attrs) (ckeyOfAttr a) = a.values) ∧
    (∀ k : String, (∀ a ∈ attrs, k ≠ ckeyOfAttr a) →
      headersGetRaw (specProjection attrs) k = []) := by
  have hnames := namesNodup_of_ckeysNodup attrs hnodup
  refine ⟨?_, ?_, headersGetRaw_spec_mem attrs hnodup,
    fun k hk => headersGetRaw_spec_not_mem attrs k hk⟩
  · simp [Authorize, hrelay, mkSessionRedirect, signedString]
  · have hc : lookupCookie r2.cookies cookieName
        = some (.tok .RS256 (buildSessionClaims asrt now) key) := by
      rw [hjar]
      simp [lookupCookie]
    rw [IsAuthorized_some key now2 r2 _ hc]
    have hlook : Claims.lookup (buildSessionClaims asrt now) "exp"
        = some (.num (now + cookieMaxAge)) :=
      Claims.lookup_set_self (buildClaims asrt.attributes) "exp" _
    have hparse : jwtParse key now2
        (.tok .RS256 (buildSessionClaims asrt now) key)
        = .ok (buildSessionClaims asrt now) := by
      simp [jwtParse, Alg.isRSA, hlook, not_lt.mpr hnow2]
    have hsess : buildSessionClaims asrt now
        = attrs.map entryOfAttr ++ [("exp", .num (now + cookieMaxAge))] := by
      unfold buildSessionClaims
      rw [hattrs]
      exact sessionClaims_eq attrs now hnames hexp
    simp only [hparse, hhead, List.any_nil, Bool.false_eq_true, if_false]
    rw [hsess, projectClaims_session attrs now hexp hnodup]

/-- C1 witness: two attributes, one multi-valued, round-tripped into
exactly their two headers with value order preserved and no `exp` header. -/
theorem C1_session_roundtrip_witness :
    IsAuthorized 1 0
        { cookies := [("token", TokenStr.tok .RS256
            (buildSessionClaims
              { attributes :=
                  [{ friendlyName := "cn", values := ["Alice Smith"] },
                   { name := "role", values := ["user", "admin"] }] } 0) 1)] }
      = .ok [("X-Saml-Cn", ["Alice Smith"]),
             ("X-Saml-Role", ["user", "admin"])] :=
  (C1_session_roundtrip 1 0 0
    [{ friendlyName := "cn", values := ["Alice Smith"] },
     { name := "role", values := ["user", "admin"] }]
    {}
    { cookies := [("token", TokenStr.tok .RS256
        (buildSessionClaims
          { attributes :=
              [{ friendlyName := "cn", values := ["Alice Smith"] },
               { name := "role", values := ["user", "admin"] }] } 0) 1)] }
    { attributes :=
        [{ friendlyName := "cn", values := ["Alice Smith"] },
         { name := "role", values := ["user", "admin"] }] }
    rfl rfl (by decide) (by decide) rfl rfl (by decide)).2.1

end Saml
